import Mathlib

/-!
# Elite Rankings Gaming Leaderboard — verification development

Shallow embedding of the ranking-and-broadcast engine of the
Elite-Rankings-Gaming-Leaderboard backend:

* data model (`User`, `GameSession`, `Leaderboard` rows, a `DB` value standing
  for the relational store seen through one transactional session),
* `LeaderboardService._calculate_rank`, `submit_score`, `get_top_leaderboard`,
  `batch_recalculate_rankings` (src/backend/app/services/leaderboard.py),
* `CacheManager` (src/backend/app/core/cache.py),
* `ConnectionManager` (src/backend/app/websocket/manager.py).

Scores are `Float` columns in the source; the properties under study concern
only the accumulation/comparison structure of scores, so they are embedded as
exact integers (`Int`).  Timestamps and `win_rate` play no role in any claim
and are omitted from the row types.
-/

set_option autoImplicit false

/-- Game modes (models.base.GameMode / schemas.GameModeEnum). -/
inductive GameMode where
  | classic
  | ranked
  | tournament
  | survival
deriving DecidableEq, Repr

/-- `users` row (models.base.User); timestamps omitted. -/
structure User where
  id : Nat
  username : String
  is_active : Nat
deriving DecidableEq, Repr

/-- `game_sessions` row (models.base.GameSession); timestamp/multiplier/metadata omitted. -/
structure GameSession where
  id : Nat
  user_id : Nat
  score : Int
  game_mode : GameMode
  duration_ms : Option Nat
deriving DecidableEq, Repr

/-- `leaderboard` row (models.base.Leaderboard); `win_rate`/`last_updated` omitted. -/
structure Leaderboard where
  id : Nat
  user_id : Nat
  total_score : Int
  rank : Nat
  games_played : Nat
  is_active : Nat
deriving DecidableEq, Repr

/-- The storage state visible through one transactional session.
`nextSessionId`/`nextEntryId` model the autoincrement primary keys. -/
structure DB where
  users : List User
  sessions : List GameSession
  entries : List Leaderboard
  nextSessionId : Nat
  nextEntryId : Nat
deriving DecidableEq, Repr

def DB.empty : DB := ⟨[], [], [], 1, 1⟩

/-- The `SELECT total_score FROM leaderboard WHERE user_id = :uid AND is_active = 1`
`.scalar()` lookup at the head of `_calculate_rank` (leaderboard.py:148-152). -/
def userScore (db : DB) (uid : Nat) : Option Int :=
  (db.entries.find? (fun e => e.user_id == uid && e.is_active == 1)).map
    (fun e => e.total_score)

/-- `LeaderboardService._calculate_rank` (leaderboard.py:142-167):
rank 1 when the player has no active entry, otherwise
`1 + count(active entries with strictly greater total_score)`. -/
def calculate_rank (db : DB) (uid : Nat) : Nat :=
  match userScore db uid with
  | none => 1
  | some s =>
      (db.entries.filter (fun e => s < e.total_score && e.is_active == 1)).length + 1

/-- The active rows of the leaderboard table. -/
def activeEntries (db : DB) : List Leaderboard :=
  db.entries.filter (fun e => e.is_active == 1)

/-- Count of active entries whose `total_score` strictly exceeds `s`. -/
def countGreater (db : DB) (s : Int) : Nat :=
  ((activeEntries db).filter (fun e => s < e.total_score)).length

/-- The database enforces `unique=True` on `leaderboard.user_id`
(models/base.py:75): at most one leaderboard row per user id. -/
def EntriesUnique (db : DB) : Prop :=
  ∀ uid, (db.entries.filter (fun e => e.user_id == uid)).length ≤ 1

-- ## Generic list helpers

theorem mem_of_length_le_one {α : Type} {l : List α} {a b : α}
    (h : l.length ≤ 1) (ha : a ∈ l) (hb : b ∈ l) : a = b := by
  match l with
  | [] => cases ha
  | [x] =>
      simp only [List.mem_singleton] at ha hb
      exact ha.trans hb.symm
  | x :: y :: t => simp at h

theorem filter_and_comm {α : Type} (p q : α → Bool) (l : List α) :
    l.filter (fun a => p a && q a) = (l.filter q).filter p := by
  induction l with
  | nil => rfl
  | cons x xs ih =>
      cases hq : q x <;> cases hp : p x <;>
        simp only [List.filter_cons, hp, hq, Bool.and_true, Bool.and_false,
          Bool.true_and, Bool.false_and, if_true, if_false, ih,
          Bool.false_eq_true, ite_false, ite_true]

/-- `EntriesUnique` follows from the user ids of the leaderboard rows being
pairwise distinct (used to discharge the hypothesis at concrete databases). -/
theorem entriesUnique_of_nodup (db : DB)
    (h : (db.entries.map (fun e => e.user_id)).Nodup) : EntriesUnique db := by
  intro uid
  rw [← List.countP_eq_length_filter]
  calc List.countP (fun e => e.user_id == uid) db.entries
      = List.countP (fun n => n == uid) (db.entries.map (fun e => e.user_id)) := by
        rw [List.countP_map]; rfl
    _ = List.count uid (db.entries.map (fun e => e.user_id)) := rfl
    _ ≤ 1 := List.nodup_iff_count_le_one.mp h uid

theorem find?_eq_some_of_unique {db : DB} {e : Leaderboard}
    (hu : EntriesUnique db) (he : e ∈ db.entries) (hact : e.is_active = 1) :
    db.entries.find? (fun x => x.user_id == e.user_id && x.is_active == 1) = some e := by
  cases hfind : db.entries.find? (fun x => x.user_id == e.user_id && x.is_active == 1) with
  | none =>
      exfalso
      have := List.find?_eq_none.mp hfind e he
      simp [hact] at this
  | some x =>
      have hxmem : x ∈ db.entries := List.mem_of_find?_eq_some hfind
      have hxp := List.find?_some hfind
      simp only [Bool.and_eq_true, beq_iff_eq] at hxp
      have hxf : x ∈ db.entries.filter (fun y => y.user_id == e.user_id) := by
        refine List.mem_filter.mpr ⟨hxmem, ?_⟩
        simp [hxp.1]
      have hef : e ∈ db.entries.filter (fun y => y.user_id == e.user_id) := by
        refine List.mem_filter.mpr ⟨he, ?_⟩
        simp
      have := mem_of_length_le_one (hu e.user_id) hxf hef
      rw [this]

-- ## C1

/-- C1.  `_calculate_rank` returns 1 for a player with no active entry;
for a player whose (unique) active entry has score `s` it returns
`1 + countGreater db s`; consequently entries with equal `total_score`
receive equal rank (dense ranking). -/
theorem calculate_rank_dense (db : DB) (hu : EntriesUnique db) :
    (∀ uid, (∀ e ∈ db.entries, ¬(e.user_id = uid ∧ e.is_active = 1)) →
        calculate_rank db uid = 1) ∧
    (∀ e ∈ db.entries, e.is_active = 1 →
        calculate_rank db e.user_id = 1 + countGreater db e.total_score) ∧
    (∀ e f, e ∈ db.entries → f ∈ db.entries → e.is_active = 1 → f.is_active = 1 →
        e.total_score = f.total_score →
        calculate_rank db e.user_id = calculate_rank db f.user_id) := by
  have key : ∀ e ∈ db.entries, e.is_active = 1 →
      calculate_rank db e.user_id = 1 + countGreater db e.total_score := by
    intro e he hact
    have hfind := find?_eq_some_of_unique hu he hact
    unfold calculate_rank userScore
    rw [hfind]
    simp only [Option.map_some']
    unfold countGreater activeEntries
    rw [← filter_and_comm (fun x => decide (e.total_score < x.total_score))
         (fun x => x.is_active == 1) db.entries]
    exact Nat.add_comm _ 1
  refine ⟨?_, key, ?_⟩
  · intro uid hnone
    unfold calculate_rank userScore
    have hn : db.entries.find? (fun x => x.user_id == uid && x.is_active == 1) = none := by
      apply List.find?_eq_none.mpr
      intro x hx hpx
      simp only [Bool.and_eq_true, beq_iff_eq] at hpx
      exact hnone x hx hpx
    rw [hn]
    rfl
  · intro e f he hf hae haf hs
    rw [key e he hae, key f hf haf, hs]

/-- Example database for the C1 witness: two tied active entries and
a third player id with no entry at all. -/
def tieDB : DB :=
  ⟨[⟨1, "Player_1", 1⟩, ⟨2, "Player_2", 1⟩], [],
   [⟨1, 1, 100, 1, 1, 1⟩, ⟨2, 2, 100, 1, 1, 1⟩], 1, 3⟩

/-- Witness for C1 at a concrete database. -/
theorem calculate_rank_dense_witness :
    EntriesUnique tieDB ∧
    (calculate_rank tieDB 99 = 1 ∧
     calculate_rank tieDB 1 = 1 + countGreater tieDB 100 ∧
     calculate_rank tieDB 1 = calculate_rank tieDB 2) := by
  have hu : EntriesUnique tieDB := entriesUnique_of_nodup tieDB (by decide)
  have h := calculate_rank_dense tieDB hu
  refine ⟨hu, h.1 99 (by decide), ?_, ?_⟩
  · exact h.2.1 ⟨1, 1, 100, 1, 1, 1⟩ (by decide) rfl
  · exact h.2.2 ⟨1, 1, 100, 1, 1, 1⟩ ⟨2, 2, 100, 1, 1, 1⟩ (by decide) (by decide)
      rfl rfl rfl

-- ## Score submission (LeaderboardService.submit_score, leaderboard.py:27-140)

/-- schemas.ScoreSubmitRequest; `metadata` omitted. -/
structure ScoreSubmitRequest where
  user_id : Nat
  score : Int
  game_mode : GameMode
  duration_ms : Option Nat
deriving DecidableEq, Repr

/-- schemas.LeaderboardUpdateEvent; timestamp omitted. -/
structure LeaderboardUpdateEvent where
  event_type : String
  user_id : Nat
  username : String
  new_rank : Nat
  old_rank : Option Nat
  total_score : Int
  rank_change : Int
deriving DecidableEq, Repr

/-- The tuple returned by `submit_score` on success. -/
structure SubmitOk where
  session_id : Nat
  new_total_score : Int
  new_rank : Nat
  rank_change : Int
deriving DecidableEq, Repr

/-- The `RuntimeError("Failed to submit score")` raised after `rollback()`
on `SQLAlchemyError` (leaderboard.py:133-136) — the spec's `TransactionFailure`. -/
inductive SubmitError where
  | transactionFailure
deriving DecidableEq, Repr

inductive SubmitResult where
  | ok (r : SubmitOk)
  | err (e : SubmitError)
deriving DecidableEq, Repr

/-- Externally visible side-effect steps of `submit_score`, in program order. -/
inductive Effect where
  | cacheDeletePattern (pat : String)
  | commit
  | rollback
  | scheduleBroadcast (ev : LeaderboardUpdateEvent)
deriving DecidableEq, Repr

structure SubmitOutcome where
  result : SubmitResult
  db : DB
  actions : List Effect
  event : Option LeaderboardUpdateEvent
deriving DecidableEq, Repr

/-- Update the first element satisfying `p` — the ORM mutation of the single
row obtained with `.first()`. -/
def updateFirst {α : Type} (p : α → Bool) (f : α → α) : List α → List α
  | [] => []
  | x :: xs => if p x then f x :: xs else x :: updateFirst p f xs

/-- `old_rank or new_rank` (leaderboard.py:115): Python `or` takes the
right operand when the left is `None` or `0`. -/
def pyOr (o : Option Nat) (d : Nat) : Nat :=
  match o with
  | some n => if n = 0 then d else n
  | none => d

/-- `(old_rank - new_rank) if old_rank else 0` (leaderboard.py:94):
`None` and `0` are falsy. -/
def rankChange (old : Option Nat) (new : Nat) : Int :=
  match old with
  | some o => if o = 0 then 0 else (o : Int) - (new : Int)
  | none => 0

/-- The rollback path of `submit_score`: the session is rolled back (the
transaction's storage mutations are discarded) and the error is raised. -/
def mkFail (orig : DB) (acts : List Effect) : SubmitOutcome :=
  ⟨.err .transactionFailure, orig, acts ++ [.rollback], none⟩

/-- The auto-created user of leaderboard.py:39-45 (email/join_date omitted). -/
def autoUser (uid : Nat) : User :=
  ⟨uid, "Player_" ++ toString uid, 1⟩

/-- Tail of `submit_score` from the post-upsert flush on (leaderboard.py:84-131).
`failAt` injects an `SQLAlchemyError` at the numbered storage operation;
`orig` is the state the rollback restores. -/
def submitFinish (orig db3 : DB) (req : ScoreSubmitRequest) (sessId : Nat)
    (username : String) (old_rank : Option Nat) (newTotal : Int)
    (failAt : Nat → Bool) : SubmitOutcome :=
  -- step 4: flush after the leaderboard upsert (line 84)
  if failAt 4 then mkFail orig [] else
  -- step 5: the SELECTs inside `_calculate_rank` (lines 86-87)
  if failAt 5 then mkFail orig [] else
  let new_rank := calculate_rank db3 req.user_id
  let rankedEntries := updateFirst (fun e => e.user_id == req.user_id)
      (fun e => { e with rank := new_rank }) db3.entries
  let db4 : DB := { db3 with entries := rankedEntries }
  -- step 6: flush of the rank write (line 91)
  if failAt 6 then mkFail orig [] else
  let rc := rankChange old_rank new_rank
  -- cache invalidation (lines 96-97) happens BEFORE the commit (line 100)
  let acts : List Effect := [.cacheDeletePattern "top_leaderboard:*",
                             .cacheDeletePattern "user_rank:*"]
  -- step 7: commit (line 100)
  if failAt 7 then mkFail orig acts else
  let ev : LeaderboardUpdateEvent :=
    ⟨"leaderboard_update", req.user_id, username, new_rank,
     some (pyOr old_rank new_rank), newTotal, rc⟩
  ⟨.ok ⟨sessId, newTotal, new_rank, rc⟩, db4,
   acts ++ [.commit, .scheduleBroadcast ev], some ev⟩

/-- Middle of `submit_score`: session insert and leaderboard upsert
(leaderboard.py:50-82). -/
def submitWithUser (orig db1 : DB) (req : ScoreSubmitRequest) (username : String)
    (failAt : Nat → Bool) : SubmitOutcome :=
  -- step 2: session insert + flush (lines 51-59)
  if failAt 2 then mkFail orig [] else
  let sess : GameSession :=
    ⟨db1.nextSessionId, req.user_id, req.score, req.game_mode, req.duration_ms⟩
  let db2 : DB := { db1 with sessions := db1.sessions ++ [sess],
                             nextSessionId := db1.nextSessionId + 1 }
  -- step 3: SELECT the leaderboard row, no is_active filter (lines 62-66)
  if failAt 3 then mkFail orig [] else
  match db2.entries.find? (fun e => e.user_id == req.user_id) with
  | some e0 =>
      let updatedEntries := updateFirst (fun e => e.user_id == req.user_id)
          (fun e => { e with total_score := e.total_score + req.score,
                             games_played := e.games_played + 1 }) db2.entries
      let db3 : DB := { db2 with entries := updatedEntries }
      submitFinish orig db3 req sess.id username (some e0.rank)
        (e0.total_score + req.score) failAt
  | none =>
      let entry : Leaderboard := ⟨db2.nextEntryId, req.user_id, req.score, 1, 1, 1⟩
      let db3 : DB := { db2 with entries := db2.entries ++ [entry],
                                 nextEntryId := db2.nextEntryId + 1 }
      submitFinish orig db3 req sess.id username none req.score failAt

/-- `LeaderboardService.submit_score` (leaderboard.py:27-140). -/
def submit_score (db : DB) (req : ScoreSubmitRequest) (failAt : Nat → Bool) :
    SubmitOutcome :=
  -- step 0: SELECT the user by id (line 36)
  if failAt 0 then mkFail db [] else
  match db.users.find? (fun u => u.id == req.user_id) with
  | some u => submitWithUser db db req u.username failAt
  | none =>
      -- step 1: auto-create user + flush (lines 39-48)
      if failAt 1 then mkFail db [] else
      submitWithUser db { db with users := db.users ++ [autoUser req.user_id] }
        req (autoUser req.user_id).username failAt

/-- No storage failure is injected. -/
def noFail : Nat → Bool := fun _ => false

/-- Inject a storage failure exactly at step `k`. -/
def failOnly (k : Nat) : Nat → Bool := fun n => n == k

def submitDB (db : DB) (req : ScoreSubmitRequest) : DB :=
  (submit_score db req noFail).db

def runSubmissions (db : DB) (reqs : List ScoreSubmitRequest) : DB :=
  reqs.foldl submitDB db

-- ## C3

def isCommit : Effect → Bool
  | .commit => true
  | _ => false

def isCacheInvalidation : Effect → Bool
  | .cacheDeletePattern _ => true
  | _ => false

/-- Formalisation of C3 as stated: every commit in the side-effect trace
happens strictly before every cache invalidation. -/
def CommitPrecedesInvalidation (tr : List Effect) : Prop :=
  ∀ i j a b, tr.get? i = some a → tr.get? j = some b →
    isCommit a = true → isCacheInvalidation b = true → i < j

def req0 : ScoreSubmitRequest := ⟨7, 100, .classic, none⟩

/-- C3 counterexample: on a concrete successful submission the cache is
invalidated (trace position 0) before the transaction is committed
(trace position 2), so the claimed order "commit first, then invalidate"
is false. -/
theorem submit_commit_not_first :
    ¬ CommitPrecedesInvalidation (submit_score DB.empty req0 noFail).actions := by
  intro h
  have h20 := h 2 0 Effect.commit (Effect.cacheDeletePattern "top_leaderboard:*")
    (by decide) (by decide) rfl rfl
  omega

/-- C3 amended: on every successful submission the side-effect trace is
exactly: invalidate all cached top-N pages, invalidate all cached per-user
rank lookups, commit the transaction, hand the update event to the
broadcast manager — in that order, all before `submit_score` returns. -/
theorem submit_effect_order (db : DB) (req : ScoreSubmitRequest) :
    ∃ ev, (submit_score db req noFail).actions =
      [Effect.cacheDeletePattern "top_leaderboard:*",
       Effect.cacheDeletePattern "user_rank:*",
       Effect.commit, Effect.scheduleBroadcast ev] := by
  simp only [submit_score, submitWithUser, submitFinish, noFail, mkFail,
    Bool.false_eq_true, if_false, ite_false]
  cases hu : db.users.find? (fun u => u.id == req.user_id) <;>
    cases he : db.entries.find? (fun e => e.user_id == req.user_id) <;>
      exact ⟨_, rfl⟩

-- ## C4

/-- C4 amended: the update event's `old_rank` field is never null — on a
player's first entry it is set to the new rank (`old_rank or new_rank`,
leaderboard.py:115); the signed delta is `old - new` when a prior entry
with a non-zero rank existed and `0` otherwise. -/
theorem submit_event_old_rank (db : DB) (req : ScoreSubmitRequest) :
    ∀ ev, (submit_score db req noFail).event = some ev →
      (db.entries.find? (fun e => e.user_id == req.user_id) = none →
         ev.old_rank = some ev.new_rank ∧ ev.rank_change = 0) ∧
      (∀ e0, db.entries.find? (fun e => e.user_id == req.user_id) = some e0 →
         e0.rank ≠ 0 →
         ev.old_rank = some e0.rank ∧
         ev.rank_change = (e0.rank : Int) - (ev.new_rank : Int)) := by
  intro ev hev
  simp only [submit_score, submitWithUser, submitFinish, noFail, mkFail,
    Bool.false_eq_true, if_false, ite_false] at hev
  cases hu : db.users.find? (fun u => u.id == req.user_id) <;>
    rw [hu] at hev <;>
    cases he : db.entries.find? (fun e => e.user_id == req.user_id) <;>
      rw [he] at hev <;>
      injection hev with hev <;> subst hev <;>
      refine ⟨fun hn => ?_, fun e0 h0 hrk => ?_⟩ <;>
      simp_all [pyOr, rankChange]

def subReq1 : ScoreSubmitRequest := ⟨1, 50, .classic, none⟩

def ev1 : LeaderboardUpdateEvent :=
  ⟨"leaderboard_update", 1, "Player_1", 1, some 1, 150, 0⟩

/-- Witness for the amended C4: a resubmission by player 1 of `tieDB`
(prior entry with rank 1). -/
theorem submit_event_old_rank_witness :
    (submit_score tieDB subReq1 noFail).event = some ev1 ∧
    (ev1.old_rank = some 1 ∧
     ev1.rank_change = ((1 : Nat) : Int) - (ev1.new_rank : Int)) := by
  refine ⟨rfl, ?_⟩
  exact (submit_event_old_rank tieDB subReq1 ev1 rfl).2 ⟨1, 1, 100, 1, 1, 1⟩ rfl
    (by decide)

/-- C4 counterexample: on a first-entry submission (empty database) the
emitted event's `old_rank` is `some 1`, not null as the claim states. -/
theorem first_entry_old_rank_not_null :
    ((submit_score DB.empty req0 noFail).event.map (fun ev => ev.old_rank))
      = some (some 1) ∧ (some 1 : Option Nat) ≠ none := by
  exact ⟨rfl, by decide⟩

-- ## C5

/-- C5.  If the storage layer fails at any step of `submit_score` (step 1,
the user auto-create flush, is only executed when the player is unknown),
the transaction is rolled back: the returned error is the retryable
transaction failure, the stored state is exactly the pre-submission state,
and neither a commit nor a broadcast hand-off happens. -/
theorem submit_rolls_back (db : DB) (req : ScoreSubmitRequest) (k : Nat)
    (hk : k ≤ 7)
    (h1 : k = 1 → db.users.find? (fun u => u.id == req.user_id) = none) :
    (submit_score db req (failOnly k)).result
        = SubmitResult.err SubmitError.transactionFailure ∧
    (submit_score db req (failOnly k)).db = db ∧
    Effect.commit ∉ (submit_score db req (failOnly k)).actions ∧
    ∀ ev, Effect.scheduleBroadcast ev ∉ (submit_score db req (failOnly k)).actions := by
  interval_cases k <;>
  first
  | (have hn := h1 rfl
     simp [submit_score, submitWithUser, submitFinish, failOnly, mkFail, hn])
  | (cases hu : db.users.find? (fun u => u.id == req.user_id) <;>
     cases he : db.entries.find? (fun e => e.user_id == req.user_id) <;>
     simp [submit_score, submitWithUser, submitFinish, failOnly, mkFail, hu, he])

/-- Witness for C5: a commit-time failure (step 7) on a concrete database. -/
theorem submit_rolls_back_witness :
    (7 : Nat) ≤ 7 ∧
    ((submit_score tieDB subReq1 (failOnly 7)).result
        = SubmitResult.err SubmitError.transactionFailure ∧
     (submit_score tieDB subReq1 (failOnly 7)).db = tieDB ∧
     Effect.commit ∉ (submit_score tieDB subReq1 (failOnly 7)).actions ∧
     ∀ ev, Effect.scheduleBroadcast ev
        ∉ (submit_score tieDB subReq1 (failOnly 7)).actions) :=
  ⟨by decide, submit_rolls_back tieDB subReq1 7 (by decide)
    (fun h => absurd h (by decide))⟩

-- ## C2 — accumulation invariant machinery

def sessionsFor (db : DB) (uid : Nat) : List GameSession :=
  db.sessions.filter (fun s => s.user_id == uid)

/-- Sum of all of a player's game-session scores. -/
def scoreSum (db : DB) (uid : Nat) : Int :=
  ((sessionsFor db uid).map (fun s => s.score)).sum

def entriesFor (db : DB) (uid : Nat) : List Leaderboard :=
  db.entries.filter (fun e => e.user_id == uid)

def usersFor (db : DB) (uid : Nat) : List User :=
  db.users.filter (fun u => u.id == uid)

/-- Invariant tying each leaderboard entry to the session history:
entries are unique per user, aggregate exactly their user's sessions,
every session's user has an entry, and every entry's user exists. -/
structure DBInv (db : DB) : Prop where
  entryAcc : ∀ e ∈ db.entries,
    e.total_score = scoreSum db e.user_id ∧
    e.games_played = (sessionsFor db e.user_id).length
  entryOne : ∀ uid, (entriesFor db uid).length ≤ 1
  sessionHasEntry : ∀ s ∈ db.sessions, entriesFor db s.user_id ≠ []
  entryHasUser : ∀ e ∈ db.entries,
    db.users.find? (fun u => u.id == e.user_id) ≠ none

theorem inv_empty : DBInv DB.empty := by
  refine ⟨?_, ?_, ?_, ?_⟩
  · intro e he
    cases he
  · intro uid
    simp [entriesFor, DB.empty]
  · intro s hs
    cases hs
  · intro e he
    cases he

theorem updateFirst_filter_pres {α : Type} {p q : α → Bool} {f : α → α}
    (hpq : ∀ x, p x = true → q x = false) (hf : ∀ x, q (f x) = q x) :
    ∀ l : List α, (updateFirst p f l).filter q = l.filter q := by
  intro l
  induction l with
  | nil => rfl
  | cons x xs ih =>
      unfold updateFirst
      by_cases hp : p x = true
      · rw [if_pos hp]
        rw [List.filter_cons, List.filter_cons, hf x, hpq x hp]
        simp
      · rw [if_neg hp]
        rw [List.filter_cons, List.filter_cons, ih]

theorem updateFirst_filter_self {α : Type} {q : α → Bool} {f : α → α}
    (hf : ∀ x, q (f x) = q x) :
    ∀ l : List α, (updateFirst q f l).filter q =
      match l.filter q with
      | [] => []
      | e :: r => f e :: r := by
  intro l
  induction l with
  | nil => rfl
  | cons x xs ih =>
      unfold updateFirst
      by_cases hq : q x = true
      · rw [if_pos hq]
        rw [List.filter_cons, List.filter_cons, hf x, hq]
        simp
      · rw [if_neg hq]
        rw [List.filter_cons, List.filter_cons, ih]
        have hq' : q x = false := by
          cases h : q x
          · rfl
          · exact absurd h hq
        simp [hq']

theorem find?_eq_head?_filter {α : Type} (q : α → Bool) :
    ∀ l : List α, l.find? q = (l.filter q).head? := by
  intro l
  induction l with
  | nil => rfl
  | cons x xs ih =>
      rw [List.find?_cons, List.filter_cons]
      cases hq : q x
      · simp only [cond_false, if_false, Bool.false_eq_true, ite_false, ih]
      · simp

theorem filter_eq_nil_of_find?_none {α : Type} {q : α → Bool} {l : List α}
    (h : l.find? q = none) : l.filter q = [] := by
  have heq := find?_eq_head?_filter q l
  rw [h] at heq
  cases hf : l.filter q with
  | nil => rfl
  | cons a t => rw [hf] at heq; cases heq

theorem filter_eq_single_of_find?_some {α : Type} {q : α → Bool} {l : List α}
    {e : α} (h : l.find? q = some e) (h1 : (l.filter q).length ≤ 1) :
    l.filter q = [e] := by
  have heq := find?_eq_head?_filter q l
  rw [h] at heq
  cases hf : l.filter q with
  | nil => rw [hf] at heq; cases heq
  | cons a t =>
      rw [hf] at heq h1
      have ha : e = a := by
        injection heq.symm with h'
        exact h'.symm
      cases t with
      | nil => rw [ha]
      | cons b t2 => simp at h1

/-- The database transformation performed by a successful `submit_score`
(derived description; `submitDB_eq` proves it equal to the embedding). -/
def submitStep (db : DB) (req : ScoreSubmitRequest) : DB :=
  let users1 : List User :=
    match db.users.find? (fun u => u.id == req.user_id) with
    | some _ => db.users
    | none => db.users ++ [autoUser req.user_id]
  let sess : GameSession :=
    ⟨db.nextSessionId, req.user_id, req.score, req.game_mode, req.duration_ms⟩
  let entries1 : List Leaderboard :=
    match db.entries.find? (fun e => e.user_id == req.user_id) with
    | some _ =>
        updateFirst (fun e => e.user_id == req.user_id)
          (fun e => { e with total_score := e.total_score + req.score,
                             games_played := e.games_played + 1 }) db.entries
    | none => db.entries ++ [⟨db.nextEntryId, req.user_id, req.score, 1, 1, 1⟩]
  let nextE : Nat :=
    match db.entries.find? (fun e => e.user_id == req.user_id) with
    | some _ => db.nextEntryId
    | none => db.nextEntryId + 1
  let db3 : DB := ⟨users1, db.sessions ++ [sess], entries1, db.nextSessionId + 1, nextE⟩
  let new_rank := calculate_rank db3 req.user_id
  ⟨users1, db.sessions ++ [sess],
   updateFirst (fun e => e.user_id == req.user_id)
     (fun e => { e with rank := new_rank }) entries1,
   db.nextSessionId + 1, nextE⟩

theorem submitDB_eq (db : DB) (req : ScoreSubmitRequest) :
    submitDB db req = submitStep db req := by
  unfold submitDB submitStep
  simp only [submit_score, submitWithUser, submitFinish, noFail, mkFail,
    Bool.false_eq_true, if_false, ite_false]
  cases hu : db.users.find? (fun u => u.id == req.user_id) <;>
    cases he : db.entries.find? (fun e => e.user_id == req.user_id) <;>
      rfl

theorem submitStep_sessions (db : DB) (req : ScoreSubmitRequest) :
    (submitStep db req).sessions = db.sessions ++
      [⟨db.nextSessionId, req.user_id, req.score, req.game_mode, req.duration_ms⟩] := by
  unfold submitStep
  cases db.users.find? (fun u => u.id == req.user_id) <;>
    cases db.entries.find? (fun e => e.user_id == req.user_id) <;> rfl

theorem submitStep_users (db : DB) (req : ScoreSubmitRequest) :
    (submitStep db req).users =
      match db.users.find? (fun u => u.id == req.user_id) with
      | some _ => db.users
      | none => db.users ++ [autoUser req.user_id] := by
  unfold submitStep
  cases db.users.find? (fun u => u.id == req.user_id) <;>
    cases db.entries.find? (fun e => e.user_id == req.user_id) <;> rfl

theorem sessionsFor_submitStep_self (db : DB) (req : ScoreSubmitRequest) :
    sessionsFor (submitStep db req) req.user_id =
      sessionsFor db req.user_id ++
      [⟨db.nextSessionId, req.user_id, req.score, req.game_mode, req.duration_ms⟩] := by
  unfold sessionsFor
  rw [submitStep_sessions, List.filter_append]
  simp

theorem sessionsFor_submitStep_other (db : DB) (req : ScoreSubmitRequest)
    (uid' : Nat) (hne : uid' ≠ req.user_id) :
    sessionsFor (submitStep db req) uid' = sessionsFor db uid' := by
  unfold sessionsFor
  rw [submitStep_sessions, List.filter_append]
  simp [Ne.symm hne]

theorem scoreSum_submitStep_self (db : DB) (req : ScoreSubmitRequest) :
    scoreSum (submitStep db req) req.user_id = scoreSum db req.user_id + req.score := by
  unfold scoreSum
  rw [sessionsFor_submitStep_self]
  simp

theorem scoreSum_submitStep_other (db : DB) (req : ScoreSubmitRequest)
    (uid' : Nat) (hne : uid' ≠ req.user_id) :
    scoreSum (submitStep db req) uid' = scoreSum db uid' := by
  unfold scoreSum
  rw [sessionsFor_submitStep_other db req uid' hne]

theorem entriesFor_submitStep_self (db : DB) (req : ScoreSubmitRequest)
    (hone : (entriesFor db req.user_id).length ≤ 1) :
    (∀ e0, db.entries.find? (fun x => x.user_id == req.user_id) = some e0 →
       ∃ r, entriesFor (submitStep db req) req.user_id
         = [⟨e0.id, e0.user_id, e0.total_score + req.score, r,
             e0.games_played + 1, e0.is_active⟩]) ∧
    (db.entries.find? (fun x => x.user_id == req.user_id) = none →
       ∃ r, entriesFor (submitStep db req) req.user_id
         = [⟨db.nextEntryId, req.user_id, req.score, r, 1, 1⟩]) := by
  have hfrk : ∀ new_rank : Nat, ∀ x : Leaderboard,
      (({ x with rank := new_rank } : Leaderboard).user_id == req.user_id)
        = (x.user_id == req.user_id) := fun _ _ => rfl
  have hfupd : ∀ x : Leaderboard,
      (({ x with total_score := x.total_score + req.score,
                 games_played := x.games_played + 1 } : Leaderboard).user_id
          == req.user_id) = (x.user_id == req.user_id) := fun _ => rfl
  constructor
  · intro e0 he
    unfold entriesFor
    simp only [submitStep, he]
    have key : ∀ NR : Nat,
        List.filter (fun e => e.user_id == req.user_id)
          (updateFirst (fun e => e.user_id == req.user_id)
            (fun e => { e with rank := NR })
            (updateFirst (fun e => e.user_id == req.user_id)
              (fun e => { e with total_score := e.total_score + req.score,
                                 games_played := e.games_played + 1 })
              db.entries))
          = [⟨e0.id, e0.user_id, e0.total_score + req.score, NR,
              e0.games_played + 1, e0.is_active⟩] := by
      intro NR
      rw [updateFirst_filter_self (hfrk NR), updateFirst_filter_self hfupd,
        filter_eq_single_of_find?_some he hone]
    exact ⟨_, key _⟩
  · intro he
    unfold entriesFor
    simp only [submitStep, he]
    have key : ∀ NR : Nat,
        List.filter (fun e => e.user_id == req.user_id)
          (updateFirst (fun e => e.user_id == req.user_id)
            (fun e => { e with rank := NR })
            (db.entries ++ [⟨db.nextEntryId, req.user_id, req.score, 1, 1, 1⟩]))
          = [⟨db.nextEntryId, req.user_id, req.score, NR, 1, 1⟩] := by
      intro NR
      rw [updateFirst_filter_self (hfrk NR), List.filter_append,
        filter_eq_nil_of_find?_none he]
      simp
    exact ⟨_, key _⟩

theorem entriesFor_submitStep_other (db : DB) (req : ScoreSubmitRequest)
    (uid' : Nat) (hne : uid' ≠ req.user_id) :
    entriesFor (submitStep db req) uid' = entriesFor db uid' := by
  have hpq : ∀ x : Leaderboard, (x.user_id == req.user_id) = true →
      (x.user_id == uid') = false := by
    intro x hx
    simp only [beq_iff_eq] at hx
    simp only [beq_eq_false_iff_ne, ne_eq, hx]
    exact Ne.symm hne
  have hfrk : ∀ new_rank : Nat, ∀ x : Leaderboard,
      (({ x with rank := new_rank } : Leaderboard).user_id == uid')
        = (x.user_id == uid') := fun _ _ => rfl
  have hfupd : ∀ x : Leaderboard,
      (({ x with total_score := x.total_score + req.score,
                 games_played := x.games_played + 1 } : Leaderboard).user_id
          == uid') = (x.user_id == uid') := fun _ => rfl
  unfold entriesFor
  cases he : db.entries.find? (fun x => x.user_id == req.user_id) <;>
    simp only [submitStep, he]
  · rw [updateFirst_filter_pres hpq (hfrk _), List.filter_append]
    have : (([⟨db.nextEntryId, req.user_id, req.score, 1, 1, 1⟩] :
        List Leaderboard).filter (fun e => e.user_id == uid')) = [] := by
      simp [Ne.symm hne]
    rw [this, List.append_nil]
  · rw [updateFirst_filter_pres hpq (hfrk _),
        updateFirst_filter_pres hpq hfupd]

/-- The post-submission leaderboard entry of the submitting player:
unique, and aggregating exactly that player's sessions. -/
theorem submitStep_post_entry (db : DB) (req : ScoreSubmitRequest) (h : DBInv db) :
    ∃ e, entriesFor (submitStep db req) req.user_id = [e] ∧
      e.total_score = scoreSum (submitStep db req) req.user_id ∧
      e.games_played = (sessionsFor (submitStep db req) req.user_id).length ∧
      (db.entries.find? (fun x => x.user_id == req.user_id) = none →
        e.games_played = 1) := by
  have hself := entriesFor_submitStep_self db req (h.entryOne req.user_id)
  cases he : db.entries.find? (fun x => x.user_id == req.user_id) with
  | some e0 =>
      obtain ⟨r, hr⟩ := hself.1 e0 he
      have he0mem : e0 ∈ db.entries := List.mem_of_find?_eq_some he
      have he0uid : e0.user_id = req.user_id := by
        have := List.find?_some he
        simpa using this
      have hacc := h.entryAcc e0 he0mem
      refine ⟨_, hr, ?_, ?_, ?_⟩
      · show e0.total_score + req.score = scoreSum (submitStep db req) req.user_id
        rw [scoreSum_submitStep_self db req, hacc.1, he0uid]
      · show e0.games_played + 1 = (sessionsFor (submitStep db req) req.user_id).length
        rw [sessionsFor_submitStep_self db req, List.length_append, hacc.2, he0uid]
        simp
      · intro hnone
        simp [he] at hnone
  | none =>
      obtain ⟨r, hr⟩ := hself.2 he
      have hentnil : entriesFor db req.user_id = [] := filter_eq_nil_of_find?_none he
      have hnosess : sessionsFor db req.user_id = [] := by
        cases hs : sessionsFor db req.user_id with
        | nil => rfl
        | cons s t =>
            exfalso
            have hsmem : s ∈ db.sessions ∧ (s.user_id == req.user_id) = true := by
              have hm : s ∈ sessionsFor db req.user_id := by
                rw [hs]
                exact List.mem_cons_self s t
              exact List.mem_filter.mp hm
            have hne := h.sessionHasEntry s hsmem.1
            have huid : s.user_id = req.user_id := by simpa using hsmem.2
            rw [huid, hentnil] at hne
            exact hne rfl
      refine ⟨_, hr, ?_, ?_, fun _ => rfl⟩
      · show req.score = scoreSum (submitStep db req) req.user_id
        rw [scoreSum_submitStep_self db req]
        unfold scoreSum
        rw [hnosess]
        simp
      · show (1 : Nat) = (sessionsFor (submitStep db req) req.user_id).length
        rw [sessionsFor_submitStep_self db req, hnosess]
        rfl

theorem submitStep_inv (db : DB) (req : ScoreSubmitRequest) (h : DBInv db) :
    DBInv (submitStep db req) := by
  obtain ⟨e, hlist, htot, hgames, hfirst⟩ := submitStep_post_entry db req h
  refine ⟨?_, ?_, ?_, ?_⟩
  · -- entryAcc
    intro e' he'
    by_cases hc : e'.user_id = req.user_id
    · have hmem' : e' ∈ entriesFor (submitStep db req) req.user_id := by
        refine List.mem_filter.mpr ⟨he', ?_⟩
        simp [hc]
      rw [hlist] at hmem'
      have hee : e' = e := by simpa using hmem'
      subst hee
      rw [hc]
      exact ⟨htot, hgames⟩
    · have hmem' : e' ∈ entriesFor (submitStep db req) e'.user_id := by
        refine List.mem_filter.mpr ⟨he', ?_⟩
        simp
      rw [entriesFor_submitStep_other db req e'.user_id hc] at hmem'
      have he'db : e' ∈ db.entries := (List.mem_filter.mp hmem').1
      rw [scoreSum_submitStep_other db req e'.user_id hc,
        sessionsFor_submitStep_other db req e'.user_id hc]
      exact h.entryAcc e' he'db
  · -- entryOne
    intro uid
    by_cases hc : uid = req.user_id
    · subst hc
      rw [hlist]
      simp
    · rw [entriesFor_submitStep_other db req uid hc]
      exact h.entryOne uid
  · -- sessionHasEntry
    intro s hs
    rw [submitStep_sessions db req] at hs
    by_cases hc : s.user_id = req.user_id
    · rw [hc, hlist]
      simp
    · rw [entriesFor_submitStep_other db req s.user_id hc]
      rcases List.mem_append.mp hs with hold | hnew
      · exact h.sessionHasEntry s hold
      · exfalso
        have hss : s = ⟨db.nextSessionId, req.user_id, req.score,
            req.game_mode, req.duration_ms⟩ := by simpa using hnew
        rw [hss] at hc
        exact hc rfl
  · -- entryHasUser
    intro e' he'
    rw [submitStep_users db req]
    cases hu : db.users.find? (fun u => u.id == req.user_id) with
    | some u =>
        by_cases hc : e'.user_id = req.user_id
        · rw [hc, hu]
          simp
        · have hmem' : e' ∈ entriesFor (submitStep db req) e'.user_id := by
            refine List.mem_filter.mpr ⟨he', ?_⟩
            simp
          rw [entriesFor_submitStep_other db req e'.user_id hc] at hmem'
          exact h.entryHasUser e' (List.mem_filter.mp hmem').1
    | none =>
        by_cases hc : e'.user_id = req.user_id
        · intro hnone
          have := List.find?_eq_none.mp hnone (autoUser req.user_id) (by simp)
          rw [hc] at this
          simp [autoUser] at this
        · have hmem' : e' ∈ entriesFor (submitStep db req) e'.user_id := by
            refine List.mem_filter.mpr ⟨he', ?_⟩
            simp
          rw [entriesFor_submitStep_other db req e'.user_id hc] at hmem'
          have he'db : e' ∈ db.entries := (List.mem_filter.mp hmem').1
          intro hnone
          apply h.entryHasUser e' he'db
          apply List.find?_eq_none.mpr
          intro x hx
          exact List.find?_eq_none.mp hnone x (List.mem_append_left _ hx)

theorem runSubmissions_inv (reqs : List ScoreSubmitRequest) :
    ∀ db : DB, DBInv db → DBInv (runSubmissions db reqs) := by
  induction reqs with
  | nil =>
      intro db h
      exact h
  | cons r rs ih =>
      intro db h
      show DBInv (runSubmissions (submitDB db r) rs)
      refine ih _ ?_
      rw [submitDB_eq]
      exact submitStep_inv db r h

theorem runSubmissions_append (db : DB) (reqs : List ScoreSubmitRequest)
    (req : ScoreSubmitRequest) :
    runSubmissions db (reqs ++ [req]) = submitDB (runSubmissions db reqs) req := by
  unfold runSubmissions
  rw [List.foldl_append]
  rfl

-- ## C2

/-- C2.  After any sequence of successful submissions starting from the empty
store, the last submission's player has exactly one leaderboard entry, whose
`total_score` is the sum of all that player's game-session scores and whose
`games_played` is the number of that player's game sessions; and when the
player id was unknown before that submission, exactly one auto-provisioned
`User` row and one entry with `games_played = 1` were created. -/
theorem submit_accumulates (reqs : List ScoreSubmitRequest) (req : ScoreSubmitRequest) :
    (∃ e, entriesFor (runSubmissions DB.empty (reqs ++ [req])) req.user_id = [e] ∧
        e.total_score = scoreSum (runSubmissions DB.empty (reqs ++ [req])) req.user_id ∧
        e.games_played =
          (sessionsFor (runSubmissions DB.empty (reqs ++ [req])) req.user_id).length) ∧
    ((runSubmissions DB.empty reqs).users.find? (fun u => u.id == req.user_id) = none →
        usersFor (runSubmissions DB.empty (reqs ++ [req])) req.user_id
          = [autoUser req.user_id] ∧
        ∃ e, entriesFor (runSubmissions DB.empty (reqs ++ [req])) req.user_id = [e] ∧
          e.games_played = 1) := by
  have hpre : DBInv (runSubmissions DB.empty reqs) :=
    runSubmissions_inv reqs DB.empty inv_empty
  rw [runSubmissions_append, submitDB_eq]
  obtain ⟨e, hlist, htot, hgames, hfirst⟩ :=
    submitStep_post_entry (runSubmissions DB.empty reqs) req hpre
  constructor
  · exact ⟨e, hlist, htot, hgames⟩
  · intro hu
    constructor
    · unfold usersFor
      simp only [submitStep_users (runSubmissions DB.empty reqs) req, hu]
      rw [List.filter_append, filter_eq_nil_of_find?_none hu]
      simp [autoUser]
    · have hnoentry : (runSubmissions DB.empty reqs).entries.find?
          (fun x => x.user_id == req.user_id) = none := by
        cases he : (runSubmissions DB.empty reqs).entries.find?
            (fun x => x.user_id == req.user_id) with
        | none => rfl
        | some e0 =>
            exfalso
            have he0mem : e0 ∈ (runSubmissions DB.empty reqs).entries :=
              List.mem_of_find?_eq_some he
            have he0uid : e0.user_id = req.user_id := by
              have := List.find?_some he
              simpa using this
            have hhas := hpre.entryHasUser e0 he0mem
            rw [he0uid] at hhas
            exact hhas hu
      exact ⟨e, hlist, hfirst hnoentry⟩

def creq1 : ScoreSubmitRequest := ⟨1, 500, .classic, none⟩
def creq2 : ScoreSubmitRequest := ⟨1, 300, .classic, none⟩
def creq3 : ScoreSubmitRequest := ⟨1, 200, .classic, none⟩

/-- Witness for C2: the spec's 500-then-300-then-200 scenario. -/
theorem submit_accumulates_witness :
    (∃ e, entriesFor (runSubmissions DB.empty ([creq1, creq2] ++ [creq3]))
          creq3.user_id = [e] ∧
        e.total_score =
          scoreSum (runSubmissions DB.empty ([creq1, creq2] ++ [creq3])) creq3.user_id ∧
        e.games_played =
          (sessionsFor (runSubmissions DB.empty ([creq1, creq2] ++ [creq3]))
            creq3.user_id).length) ∧
    ((runSubmissions DB.empty [creq1, creq2]).users.find?
        (fun u => u.id == creq3.user_id) = none →
      usersFor (runSubmissions DB.empty ([creq1, creq2] ++ [creq3])) creq3.user_id
        = [autoUser creq3.user_id] ∧
      ∃ e, entriesFor (runSubmissions DB.empty ([creq1, creq2] ++ [creq3]))
          creq3.user_id = [e] ∧ e.games_played = 1) :=
  submit_accumulates [creq1, creq2] creq3

-- ## C7 — get_top_leaderboard (leaderboard.py:169-218)

/-- The SELECT tuple of leaderboard.py:183-196 (win_rate/last_updated omitted). -/
structure TopRow where
  user_id : Nat
  username : String
  total_score : Int
  games_played : Nat
deriving DecidableEq, Repr

/-- schemas.LeaderboardEntryResponse (win_rate/last_updated omitted);
`rank` here is the sequential display position. -/
structure LeaderboardEntryResponse where
  rank : Nat
  user_id : Nat
  username : String
  total_score : Int
  games_played : Nat
deriving DecidableEq, Repr

/-- The `leaderboard JOIN users` rows with `is_active = 1`
(pre-ORDER BY row set of the query at leaderboard.py:183-196). -/
def activeJoined (db : DB) : List TopRow :=
  db.entries.filterMap (fun e =>
    if e.is_active == 1 then
      (db.users.find? (fun u => u.id == e.user_id)).map
        (fun u => ⟨e.user_id, u.username, e.total_score, e.games_played⟩)
    else none)

/-- Insertion step of the `ORDER BY total_score DESC` sort.  SQL leaves the
relative order of equal scores unspecified; this is one refinement of it. -/
def insertDesc (x : TopRow) : List TopRow → List TopRow
  | [] => [x]
  | y :: ys => if y.total_score < x.total_score then x :: y :: ys
               else y :: insertDesc x ys

def sortDesc (l : List TopRow) : List TopRow := l.foldr insertDesc []

/-- `enumerate(entries, start=1)` (leaderboard.py:199-210): sequential
display positions. -/
def withPositions : Nat → List TopRow → List LeaderboardEntryResponse
  | _, [] => []
  | n, r :: rs =>
      ⟨n, r.user_id, r.username, r.total_score, r.games_played⟩ ::
        withPositions (n + 1) rs

def stripPos (r : LeaderboardEntryResponse) : TopRow :=
  ⟨r.user_id, r.username, r.total_score, r.games_played⟩

/-- `settings.LEADERBOARD_TOP_N` default (config.py:48). -/
def LEADERBOARD_TOP_N : Nat := 100

/-- Python slice `l[a : b]` for natural bounds. -/
def pySlice {α : Type} (a b : Nat) (l : List α) : List α :=
  (l.drop a).take (b - a)

def topKey (limit offset : Nat) : String :=
  "top_leaderboard:" ++ toString limit ++ ":" ++ toString offset

/-- `LeaderboardService.get_top_leaderboard` (leaderboard.py:169-218).
`cache` is the readable state of the cache store; the trailing
`cache_manager.set` does not affect the returned value and is not modelled.
`limit or settings.LEADERBOARD_TOP_N` makes `None` *and* `0` fall back to
the default page size. -/
def get_top_leaderboard (db : DB)
    (cache : String → Option (List LeaderboardEntryResponse))
    (limit : Option Nat) (offset : Nat) : List LeaderboardEntryResponse :=
  let lim := match limit with
    | some l => if l = 0 then LEADERBOARD_TOP_N else l
    | none => LEADERBOARD_TOP_N
  match cache (topKey lim offset) with
  | some cached => cached
  | none =>
      let result := withPositions 1 (sortDesc (activeJoined db))
      pySlice offset (offset + lim) result

def emptyCache : String → Option (List LeaderboardEntryResponse) := fun _ => none

theorem insertDesc_perm (x : TopRow) (l : List TopRow) :
    List.Perm (insertDesc x l) (x :: l) := by
  induction l with
  | nil => exact List.Perm.refl _
  | cons y ys ih =>
      unfold insertDesc
      by_cases h : y.total_score < x.total_score
      · rw [if_pos h]
      · rw [if_neg h]
        exact (List.Perm.cons y ih).trans (List.Perm.swap x y ys)

theorem sortDesc_perm (l : List TopRow) : List.Perm (sortDesc l) l := by
  induction l with
  | nil => exact List.Perm.refl _
  | cons x xs ih =>
      unfold sortDesc
      show List.Perm (insertDesc x (sortDesc xs)) (x :: xs)
      exact (insertDesc_perm x (sortDesc xs)).trans (List.Perm.cons x ih)

theorem insertDesc_pairwise (x : TopRow) (l : List TopRow)
    (h : List.Pairwise (fun a b => b.total_score ≤ a.total_score) l) :
    List.Pairwise (fun a b => b.total_score ≤ a.total_score) (insertDesc x l) := by
  induction l with
  | nil => simp [insertDesc]
  | cons y ys ih =>
      rw [List.pairwise_cons] at h
      unfold insertDesc
      by_cases hlt : y.total_score < x.total_score
      · rw [if_pos hlt]
        refine List.Pairwise.cons ?_ (List.Pairwise.cons h.1 h.2)
        intro z hz
        rcases List.mem_cons.mp hz with hz | hz
        · rw [hz]; exact le_of_lt hlt
        · exact le_trans (h.1 z hz) (le_of_lt hlt)
      · rw [if_neg hlt]
        refine List.Pairwise.cons ?_ (ih h.2)
        intro z hz
        have hz' : z ∈ x :: ys := (insertDesc_perm x ys).mem_iff.mp hz
        rcases List.mem_cons.mp hz' with hz' | hz'
        · rw [hz']; exact le_of_not_lt hlt
        · exact h.1 z hz'

theorem sortDesc_sorted (l : List TopRow) :
    List.Pairwise (fun a b => b.total_score ≤ a.total_score) (sortDesc l) := by
  induction l with
  | nil => exact List.Pairwise.nil
  | cons x xs ih => exact insertDesc_pairwise x (sortDesc xs) ih

theorem withPositions_map_strip (l : List TopRow) :
    ∀ n, (withPositions n l).map stripPos = l := by
  induction l with
  | nil => intro n; rfl
  | cons r rs ih =>
      intro n
      show stripPos _ :: (withPositions (n + 1) rs).map stripPos = r :: rs
      rw [ih (n + 1)]
      rfl

theorem withPositions_pairwise (l : List TopRow)
    (h : List.Pairwise (fun a b => b.total_score ≤ a.total_score) l) :
    ∀ n, List.Pairwise (fun a b => b.total_score ≤ a.total_score)
      (withPositions n l) := by
  induction l with
  | nil => intro n; exact List.Pairwise.nil
  | cons r rs ih =>
      rw [List.pairwise_cons] at h
      intro n
      refine List.Pairwise.cons ?_ (ih h.2 (n + 1))
      intro z hz
      have : stripPos z ∈ rs := by
        rw [← withPositions_map_strip rs (n + 1)]
        exact List.mem_map_of_mem stripPos hz
      exact h.1 (stripPos z) this

theorem withPositions_rank (l : List TopRow) :
    ∀ n i r, (withPositions n l).get? i = some r → r.rank = n + i := by
  induction l with
  | nil => intro n i r h; cases h
  | cons x xs ih =>
      intro n i r h
      cases i with
      | zero =>
          injection h with h
          rw [← h]
          show n = n + 0
          omega
      | succ j =>
          have := ih (n + 1) j r h
          omega

def threeReqs : List ScoreSubmitRequest :=
  [⟨1, 1500, .classic, none⟩, ⟨2, 1000, .classic, none⟩, ⟨3, 800, .classic, none⟩]

/-- C7 amended: for every `limit ≥ 1` and offset, on a cache miss `getTop`
computes the full active ranking ordered by descending `total_score`
(a permutation of the active joined rows), assigns sequential display
positions 1..N (ties get distinct consecutive positions), and returns the
page at positions `offset+1 .. offset+limit`; the three-player 1500/1000/800
scenario returns exactly those three entries with positions 1, 2, 3.
(`limit = 0` or `None` falls back to the configured default page size.) -/
theorem get_top_pages :
    (∀ (db : DB) (cache : String → Option (List LeaderboardEntryResponse))
        (limit offset : Nat),
       cache (topKey limit offset) = none → 1 ≤ limit →
       ∃ full : List LeaderboardEntryResponse,
         List.Perm (full.map stripPos) (activeJoined db) ∧
         List.Pairwise (fun a b => b.total_score ≤ a.total_score) full ∧
         (∀ i r, full.get? i = some r → r.rank = i + 1) ∧
         get_top_leaderboard db cache (some limit) offset
           = (full.drop offset).take limit) ∧
    get_top_leaderboard (runSubmissions DB.empty threeReqs) emptyCache (some 10) 0
      = [⟨1, 1, "Player_1", 1500, 1⟩, ⟨2, 2, "Player_2", 1000, 1⟩,
         ⟨3, 3, "Player_3", 800, 1⟩] := by
  constructor
  · intro db cache limit offset hmiss hlim
    refine ⟨withPositions 1 (sortDesc (activeJoined db)), ?_, ?_, ?_, ?_⟩
    · rw [withPositions_map_strip]
      exact sortDesc_perm _
    · exact withPositions_pairwise _ (sortDesc_sorted _) 1
    · intro i r h
      have := withPositions_rank (sortDesc (activeJoined db)) 1 i r h
      omega
    · unfold get_top_leaderboard
      have hz : ¬ (limit = 0) := by omega
      simp only [if_neg hz, hmiss]
      unfold pySlice
      rw [Nat.add_sub_cancel_left]
  · rfl

/-- Witness for the amended C7 at a concrete database, limit and offset. -/
theorem get_top_pages_witness :
    emptyCache (topKey 2 1) = none ∧ (1 : Nat) ≤ 2 ∧
    (∃ full : List LeaderboardEntryResponse,
       List.Perm (full.map stripPos) (activeJoined (runSubmissions DB.empty threeReqs)) ∧
       List.Pairwise (fun a b => b.total_score ≤ a.total_score) full ∧
       (∀ i r, full.get? i = some r → r.rank = i + 1) ∧
       get_top_leaderboard (runSubmissions DB.empty threeReqs) emptyCache (some 2) 1
         = (full.drop 1).take 2) :=
  ⟨rfl, by decide,
   get_top_pages.1 (runSubmissions DB.empty threeReqs) emptyCache 2 1 rfl (by decide)⟩

/-- C7 counterexample: with `limit = 0` the claim's page
(positions `offset+1 .. offset+0`, i.e. empty) disagrees with the code,
which falls back to the default page size and returns a non-empty page. -/
theorem get_top_limit_zero_not_empty :
    get_top_leaderboard (runSubmissions DB.empty [⟨1, 1500, .classic, none⟩])
        emptyCache (some 0) 0
      = [⟨1, 1, "Player_1", 1500, 1⟩] ∧
    ([⟨1, 1, "Player_1", 1500, 1⟩] : List LeaderboardEntryResponse) ≠ [] :=
  ⟨rfl, by decide⟩

-- ## C9 — batch_recalculate_rankings (leaderboard.py:284-320)

/-- Insertion step of `ORDER BY rank`.  SQL leaves the relative order of
equal ranks unspecified; the input below involves no rank ties at any
point where the selected batch depends on it. -/
def insertByRank (x : Leaderboard) : List Leaderboard → List Leaderboard
  | [] => [x]
  | y :: ys => if x.rank < y.rank then x :: y :: ys else y :: insertByRank x ys

def sortByRank (l : List Leaderboard) : List Leaderboard :=
  l.foldr insertByRank []

/-- One page: `SELECT user_id FROM leaderboard WHERE is_active = 1
ORDER BY rank LIMIT batch_size OFFSET offset` (leaderboard.py:294-301). -/
def batchUsers (db : DB) (bs offset : Nat) : List Nat :=
  ((((sortByRank (db.entries.filter (fun e => e.is_active == 1)))).map
      (fun e => e.user_id)).drop offset).take bs

/-- `query(...).filter(user_id == uid).update({rank: r})` updates every
matching row (leaderboard.py:309-311). -/
def setRankAll (db : DB) (uid : Nat) (r : Nat) : DB :=
  let newEntries := db.entries.map
    (fun e => if e.user_id == uid then { e with rank := r } else e)
  { db with entries := newEntries }

/-- The per-user inner loop of one batch (leaderboard.py:306-314). -/
def batchStep (db : DB) (uids : List Nat) : DB :=
  uids.foldl (fun d uid => setRankAll d uid (calculate_rank d uid)) db

/-- The `while True` loop (leaderboard.py:292-318), fuelled: the offset
grows by `batch_size` every iteration and the number of active entries is
unchanged, so `entries.length + 1` iterations always reach the empty page. -/
def batchLoop : Nat → DB → Nat → Nat → DB
  | 0, db, _, _ => db
  | fuel + 1, db, bs, offset =>
      let us := batchUsers db bs offset
      if us.isEmpty then db
      else batchLoop fuel (batchStep db us) bs (offset + bs)

/-- `LeaderboardService.batch_recalculate_rankings`. -/
def batch_recalculate_rankings (db : DB) (bs : Nat) : DB :=
  batchLoop (db.entries.length + 1) db bs 0

/-- Drifted stored ranks (the situation reconcileAll exists to repair):
player 1 scored 10 with stored rank 1, player 2 scored 40 with stored
rank 2, player 3 scored 30 with stored rank 6. -/
def staleDB : DB :=
  ⟨[⟨1, "Player_1", 1⟩, ⟨2, "Player_2", 1⟩, ⟨3, "Player_3", 1⟩], [],
   [⟨1, 1, 10, 1, 1, 1⟩, ⟨2, 2, 40, 2, 1, 1⟩, ⟨3, 3, 30, 6, 1, 1⟩], 1, 4⟩

/-- C9: with `batchSize = 1` on `staleDB`, the run never recomputes
player 2's entry — recomputed ranks shift entries across the offset
boundary, so the pagination skips it — leaving its stored rank 2 while its
dense rank is 1.  This contradicts the claim (and the function's own
purpose of recalculating all rankings for consistency). -/
theorem batch_recalculate_skips_entry :
    (batch_recalculate_rankings staleDB 1).entries =
      [⟨1, 1, 10, 3, 1, 1⟩, ⟨2, 2, 40, 2, 1, 1⟩, ⟨3, 3, 30, 2, 1, 1⟩] ∧
    calculate_rank (batch_recalculate_rankings staleDB 1) 2 = 1 ∧
    (∃ e, (batch_recalculate_rankings staleDB 1).entries.find?
        (fun x => x.user_id == 2) = some e ∧ e.rank = 2 ∧
        e.rank ≠ calculate_rank (batch_recalculate_rankings staleDB 1) 2) := by
  refine ⟨by decide, by decide, ⟨⟨2, 2, 40, 2, 1, 1⟩, by decide, by decide, by decide⟩⟩

-- ## C6 — CacheManager (cache.py:17-173)

/-- Outcome of one call to the underlying redis client: a value, or a
raised connectivity error. -/
inductive CacheResp (α : Type) where
  | ok (a : α)
  | err
deriving DecidableEq, Repr

/-- The redis client calls used by the six operations under study.
`existsN` embeds the client's `exists` call (Lean keyword). -/
structure RedisClient where
  get : String → CacheResp (Option String)
  setex : String → Nat → String → CacheResp Unit
  del : List String → CacheResp Nat
  keys : String → CacheResp (List String)
  existsN : String → CacheResp Nat
  incrby : String → Int → CacheResp Int

/-- `settings.LEADERBOARD_CACHE_TTL` default (config.py:29). -/
def LEADERBOARD_CACHE_TTL : Nat := 300

/-- `CacheManager._make_key` with the default `REDIS_KEY_PREFIX`
"leaderboard:" (cache.py:39-41, config.py:28). -/
def mkKey (key : String) : String := "leaderboard:" ++ key

namespace CacheManager

/-- `CacheManager.get` (cache.py:43-54).  Cached payloads are kept as raw
strings (json decoding is not modelled); Python truthiness makes the empty
string fall through to `None`. -/
def get (client : Option RedisClient) (key : String) : Option String :=
  match client with
  | none => none
  | some c =>
      match c.get (mkKey key) with
      | .ok (some d) => if d = "" then none else some d
      | .ok none => none
      | .err => none

/-- `CacheManager.set` (cache.py:56-70); `ttl or LEADERBOARD_CACHE_TTL`
makes `None` and `0` fall back to the default. -/
def set (client : Option RedisClient) (key value : String)
    (ttl : Option Nat) : Bool :=
  match client with
  | none => false
  | some c =>
      let t := match ttl with
        | some n => if n = 0 then LEADERBOARD_CACHE_TTL else n
        | none => LEADERBOARD_CACHE_TTL
      match c.setex (mkKey key) t value with
      | .ok _ => true
      | .err => false

/-- `CacheManager.delete` (cache.py:72-80). -/
def delete (client : Option RedisClient) (key : String) : Bool :=
  match client with
  | none => false
  | some c =>
      match c.del [mkKey key] with
      | .ok n => !(n == 0)
      | .err => false

/-- `CacheManager.delete_pattern` (cache.py:82-93). -/
def delete_pattern (client : Option RedisClient) (pat : String) : Nat :=
  match client with
  | none => 0
  | some c =>
      match c.keys (mkKey pat) with
      | .ok ks =>
          if ks.isEmpty then 0
          else
            match c.del ks with
            | .ok n => n
            | .err => 0
      | .err => 0

/-- `CacheManager.exists` (cache.py:95-103). -/
def existsKey (client : Option RedisClient) (key : String) : Bool :=
  match client with
  | none => false
  | some c =>
      match c.existsN (mkKey key) with
      | .ok n => !(n == 0)
      | .err => false

/-- `CacheManager.increment` (cache.py:105-113). -/
def increment (client : Option RedisClient) (key : String) (amount : Int) : Int :=
  match client with
  | none => 0
  | some c =>
      match c.incrby (mkKey key) amount with
      | .ok n => n
      | .err => 0

end CacheManager

/-- Every call of the underlying client raises. -/
def ClientFails (c : RedisClient) : Prop :=
  (∀ k, c.get k = .err) ∧ (∀ k t v, c.setex k t v = .err) ∧
  (∀ ks, c.del ks = .err) ∧ (∀ p, c.keys p = .err) ∧
  (∀ k, c.existsN k = .err) ∧ (∀ k a, c.incrby k a = .err)

-- ## C6

/-- C6.  When the cache is unavailable — no client connected, or a client
whose every call raises — each of the six operations returns the
empty/negative result of its type instead of propagating the failure
(the operations are total functions into plain result types). -/
theorem cache_absorbs_failures (client : Option RedisClient)
    (h : client = none ∨ ∃ c, client = some c ∧ ClientFails c) :
    ∀ (key pat value : String) (ttl : Option Nat) (amount : Int),
      CacheManager.get client key = none ∧
      CacheManager.set client key value ttl = false ∧
      CacheManager.delete client key = false ∧
      CacheManager.delete_pattern client pat = 0 ∧
      CacheManager.existsKey client key = false ∧
      CacheManager.increment client key amount = 0 := by
  intro key pat value ttl amount
  rcases h with h | ⟨c, h, hf⟩ <;> subst h
  · exact ⟨rfl, rfl, rfl, rfl, rfl, rfl⟩
  · obtain ⟨hg, hs, hd, hk, he, hi⟩ := hf
    refine ⟨?_, ?_, ?_, ?_, ?_, ?_⟩
    · simp [CacheManager.get, hg]
    · simp [CacheManager.set, hs]
    · simp [CacheManager.delete, hd]
    · simp [CacheManager.delete_pattern, hk]
    · simp [CacheManager.existsKey, he]
    · simp [CacheManager.increment, hi]

/-- A client whose every call raises. -/
def failingClient : RedisClient :=
  ⟨fun _ => .err, fun _ _ _ => .err, fun _ => .err, fun _ => .err,
   fun _ => .err, fun _ _ => .err⟩

/-- Witness for C6 at the always-raising client and concrete keys. -/
theorem cache_absorbs_failures_witness :
    CacheManager.get (some failingClient) "top_leaderboard:100:0" = none ∧
    CacheManager.set (some failingClient) "top_leaderboard:100:0" "v" (some 300) = false ∧
    CacheManager.delete (some failingClient) "user_rank:1" = false ∧
    CacheManager.delete_pattern (some failingClient) "top_leaderboard:*" = 0 ∧
    CacheManager.existsKey (some failingClient) "health_check" = false ∧
    CacheManager.increment (some failingClient) "counter" 1 = 0 :=
  cache_absorbs_failures (some failingClient)
    (Or.inr ⟨failingClient, rfl,
      ⟨fun _ => rfl, fun _ _ _ => rfl, fun _ => rfl, fun _ => rfl,
       fun _ => rfl, fun _ _ => rfl⟩⟩)
    "top_leaderboard:100:0" "top_leaderboard:*" "v" (some 300) 1

-- ## ConnectionManager (websocket/manager.py:20-79)

/-- `active_connections : Dict[int, Set[WebSocket]]` — user id to set of
connections, as an insertion-ordered association list (Python dicts are
insertion-ordered; set elements carry no meaningful order, connection ids
stand for the WebSocket objects). -/
abbrev Registry : Type := List (Nat × List Nat)

def regFind (m : Registry) (uid : Nat) : Option (List Nat) :=
  ((m : List (Nat × List Nat)).find? (fun p => p.1 == uid)).map (fun p => p.2)

/-- Is `ws` currently registered under `uid`? -/
def registered (m : Registry) (uid ws : Nat) : Bool :=
  match regFind m uid with
  | some l => l.contains ws
  | none => false

/-- `ConnectionManager.connect` (manager.py:26-32): accept, create the
id's set if missing, add the connection (`Set.add` — no duplicates). -/
def connect (m : Registry) (ws uid : Nat) : Registry :=
  let m1 : List (Nat × List Nat) := match regFind m uid with
    | some _ => m
    | none => (m : List (Nat × List Nat)) ++ [(uid, [])]
  updateFirst (fun p => p.1 == uid)
    (fun p => (p.1, if p.2.contains ws then p.2 else p.2 ++ [ws])) m1

/-- `ConnectionManager.disconnect` (manager.py:34-40): discard the
connection from the set (set removal — all occurrences), drop the key
when the set becomes empty. -/
def disconnect (m : Registry) (ws uid : Nat) : Registry :=
  match regFind m uid with
  | none => m
  | some conns =>
      let conns' := conns.filter (fun w => !(w == ws))
      if conns'.isEmpty then
        (m : List (Nat × List Nat)).filter (fun p => !(p.1 == uid))
      else
        updateFirst (fun p => p.1 == uid) (fun p => (p.1, conns')) m

/-- The snapshot `list(items())` / `list(websockets)` iterated by
`broadcast_update`: every (user id, connection) pair. -/
def regPairs (m : Registry) : List (Nat × Nat) :=
  ((m : List (Nat × List Nat)).map
    (fun p => p.2.map (fun ws => (p.1, ws)))).flatten

/-- One delivery attempt of `broadcast_update` (manager.py:51-59):
a failing send unregisters that connection; a successful one leaves the
registry unchanged. -/
def stepFail (fails : Nat → Bool) (s : Registry) (pr : Nat × Nat) : Registry :=
  if fails pr.2 then disconnect s pr.2 pr.1 else s

/-- `ConnectionManager.broadcast_update` (manager.py:42-59): attempt
delivery to every snapshot pair in order, threading the registry through
the failure-path disconnects; also returns the attempted pairs. -/
def broadcast_update (m : Registry) (fails : Nat → Bool) :
    Registry × List (Nat × Nat) :=
  (regPairs m).foldl
    (fun st pr => (stepFail fails st.1 pr, st.2 ++ [pr])) (m, [])

/-- `ConnectionManager.send_snapshot` (manager.py:61-71): a failure is
only logged; the registry is untouched either way.  Returns whether the
snapshot was delivered. -/
def send_snapshot (m : Registry) (fails : Nat → Bool) (ws : Nat) :
    Registry × Bool :=
  (m, !(fails ws))

/-- `ConnectionManager.get_connection_count` (manager.py:73-75). -/
def get_connection_count (m : Registry) : Nat :=
  (((m : List (Nat × List Nat)).map (fun p => p.2.length))).sum

/-- Registry invariant: every present key maps to a non-empty set. -/
def RegInv (m : Registry) : Prop :=
  ∀ p ∈ (m : List (Nat × List Nat)), p.2 ≠ []

theorem updateFirst_mem {α : Type} {p : α → Bool} {f : α → α} {l : List α} {x : α}
    (h : x ∈ updateFirst p f l) :
    x ∈ l ∨ ∃ y, y ∈ l ∧ p y = true ∧ x = f y := by
  induction l with
  | nil => cases h
  | cons z zs ih =>
      unfold updateFirst at h
      by_cases hp : p z = true
      · rw [if_pos hp] at h
        rcases List.mem_cons.mp h with h | h
        · exact Or.inr ⟨z, List.mem_cons_self z zs, hp, h⟩
        · exact Or.inl (List.mem_cons_of_mem z h)
      · rw [if_neg hp] at h
        rcases List.mem_cons.mp h with h | h
        · rw [h]
          exact Or.inl (List.mem_cons_self z zs)
        · rcases ih h with h | ⟨y, hy, hpy, hxy⟩
          · exact Or.inl (List.mem_cons_of_mem z h)
          · exact Or.inr ⟨y, List.mem_cons_of_mem z hy, hpy, hxy⟩

theorem find?_updateFirst_self {α : Type} {p : α → Bool} {f : α → α}
    (hf : ∀ x, p (f x) = p x) : ∀ l : List α,
    (updateFirst p f l).find? p = (l.find? p).map f := by
  intro l
  induction l with
  | nil => rfl
  | cons z zs ih =>
      unfold updateFirst
      by_cases hp : p z = true
      · rw [if_pos hp]
        simp [List.find?, hf z, hp]
      · rw [if_neg hp]
        have hp' : p z = false := by
          cases h : p z
          · rfl
          · exact absurd h hp
        simp [List.find?, hp', ih]

theorem find?_updateFirst_other {α : Type} {p q : α → Bool} {f : α → α}
    (hpq : ∀ x, p x = true → q x = false) (hf : ∀ x, q (f x) = q x) :
    ∀ l : List α, (updateFirst p f l).find? q = l.find? q := by
  intro l
  induction l with
  | nil => rfl
  | cons z zs ih =>
      unfold updateFirst
      by_cases hp : p z = true
      · rw [if_pos hp]
        simp [List.find?, hf z, hpq z hp]
      · rw [if_neg hp]
        cases hq : q z
        · simp [List.find?, hq, ih]
        · simp [List.find?, hq]

theorem find?_filter_subpred {α : Type} {q r : α → Bool}
    (h : ∀ x, q x = true → r x = true) : ∀ l : List α,
    (l.filter r).find? q = l.find? q := by
  intro l
  induction l with
  | nil => rfl
  | cons z zs ih =>
      rw [List.filter_cons]
      cases hr : r z
      · have hq : q z = false := by
          cases hqz : q z
          · rfl
          · rw [h z hqz] at hr
            exact absurd hr (by simp)
        simp [List.find?, hq, ih]
      · cases hq : q z <;> simp [List.find?, hq, ih]

theorem updateFirst_append_left {α : Type} {p : α → Bool} {f : α → α}
    {l1 : List α} (l2 : List α) (h : ∀ x ∈ l1, p x = false) :
    updateFirst p f (l1 ++ l2) = l1 ++ updateFirst p f l2 := by
  induction l1 with
  | nil => rfl
  | cons z zs ih =>
      have hz : p z = false := h z (List.mem_cons_self z zs)
      rw [List.cons_append]
      simp only [updateFirst, hz, Bool.false_eq_true, ite_false, if_false]
      rw [ih (fun x hx => h x (List.mem_cons_of_mem z hx))]
      rfl

theorem find?_append_left_none {α : Type} {p : α → Bool}
    {l1 : List α} (l2 : List α) (h : ∀ x ∈ l1, p x = false) :
    (l1 ++ l2).find? p = l2.find? p := by
  induction l1 with
  | nil => rfl
  | cons z zs ih =>
      show (z :: (zs ++ l2)).find? p = l2.find? p
      simp [List.find?, h z (List.mem_cons_self z zs),
        ih (fun x hx => h x (List.mem_cons_of_mem z hx))]

/-- How `disconnect` changes a lookup: the disconnected player's set loses
`ws` (the key disappearing when the set empties); other keys are untouched. -/
theorem regFind_disconnect (m : Registry) (ws uid uid' : Nat) :
    regFind (disconnect m ws uid) uid' =
      if uid' = uid then
        match regFind m uid with
        | none => none
        | some conns =>
            if (conns.filter (fun w => !(w == ws))).isEmpty then none
            else some (conns.filter (fun w => !(w == ws)))
      else regFind m uid' := by
  unfold disconnect
  cases hf : regFind m uid with
  | none =>
      by_cases h : uid' = uid
      · subst h
        simp [hf]
      · simp [h]
  | some conns =>
      cases he : (conns.filter (fun w => !(w == ws))).isEmpty with
      | true =>
          simp only [he, ite_true, if_true]
          by_cases h : uid' = uid
          · subst h
            simp only [ite_true, if_true]
            unfold regFind
            have hn : (m.filter (fun p => !(p.1 == uid'))).find?
                (fun p => p.1 == uid') = none := by
              apply List.find?_eq_none.mpr
              intro x hx
              have hx2 := (List.mem_filter.mp hx).2
              simp only [Bool.not_eq_eq_eq_not, Bool.not_true] at hx2
              simp [hx2]
            rw [hn]
            rfl
          · simp only [h, ite_false, if_false]
            unfold regFind
            rw [find?_filter_subpred ?_ m]
            intro x hx
            simp only [beq_iff_eq] at hx
            simp [hx, h]
      | false =>
          simp only [he, Bool.false_eq_true, ite_false, if_false]
          by_cases h : uid' = uid
          · subst h
            simp only [ite_true, if_true]
            unfold regFind
            have hrw := @find?_updateFirst_self (Nat × List Nat)
              (fun p => p.1 == uid')
              (fun p => (p.1, conns.filter (fun w => !(w == ws))))
              (fun _ => rfl) m
            rw [hrw]
            unfold regFind at hf
            cases hfind : m.find? (fun p => p.1 == uid') with
            | none =>
                rw [hfind] at hf
                cases hf
            | some pr =>
                rw [hfind] at hf
                simp only [Option.map_some'] at hf
                injection hf with hf
                simp [hf]
          · simp only [h, ite_false, if_false]
            unfold regFind
            have hrw := @find?_updateFirst_other (Nat × List Nat)
              (fun p => p.1 == uid) (fun p => p.1 == uid')
              (fun p => (p.1, conns.filter (fun w => !(w == ws))))
              (fun x hx => by
                simp only [beq_iff_eq] at hx
                show (x.1 == uid') = false
                rw [hx]
                simp only [beq_eq_false_iff_ne, ne_eq]
                omega)
              (fun _ => rfl) m
            rw [hrw]

theorem not_contains_filter_self (conns : List Nat) (ws : Nat) :
    (conns.filter (fun w => !(w == ws))).contains ws = false := by
  cases hc : (conns.filter (fun w => !(w == ws))).contains ws with
  | false => rfl
  | true =>
      exfalso
      have hmem : ws ∈ conns.filter (fun w => !(w == ws)) := List.elem_iff.mp hc
      have := (List.mem_filter.mp hmem).2
      simp at this

/-- A failed send's disconnect removes exactly that registration. -/
theorem registered_disconnect_self (m : Registry) (ws uid : Nat) :
    registered (disconnect m ws uid) uid ws = false := by
  unfold registered
  rw [regFind_disconnect, if_pos rfl]
  cases hf : regFind m uid with
  | none => rfl
  | some conns =>
      cases he : (conns.filter (fun w => !(w == ws))).isEmpty with
      | true => simp [he]
      | false =>
          simp only [he, Bool.false_eq_true, ite_false, if_false]
          exact not_contains_filter_self conns ws

/-- `disconnect` never registers anything new. -/
theorem registered_disconnect_mono (m : Registry) (w u uid ws : Nat)
    (h : registered (disconnect m w u) uid ws = true) :
    registered m uid ws = true := by
  unfold registered at h ⊢
  rw [regFind_disconnect] at h
  by_cases hc : uid = u
  · subst hc
    cases hf : regFind m uid with
    | none =>
        rw [hf] at h
        simp at h
    | some conns =>
        rw [hf] at h
        cases he : (conns.filter (fun v => !(v == w))).isEmpty with
        | true => simp [he] at h
        | false =>
            simp only [he, Bool.false_eq_true, ite_false, if_false] at h
            have hmem : ws ∈ conns.filter (fun v => !(v == w)) := List.elem_iff.mp h
            have : ws ∈ conns := (List.mem_filter.mp hmem).1
            exact List.elem_iff.mpr this
  · rw [if_neg hc] at h
    exact h

/-- `disconnect` preserves the registry invariant. -/
theorem disconnect_regInv (m : Registry) (ws uid : Nat) (h : RegInv m) :
    RegInv (disconnect m ws uid) := by
  unfold disconnect
  cases hf : regFind m uid with
  | none => exact h
  | some conns =>
      cases he : (conns.filter (fun w => !(w == ws))).isEmpty with
      | true =>
          simp only [he, ite_true, if_true]
          intro p hp
          exact h p (List.mem_filter.mp hp).1
      | false =>
          simp only [he, Bool.false_eq_true, ite_false, if_false]
          intro p hp
          rcases updateFirst_mem hp with hp | ⟨y, hy, hpy, hxy⟩
          · exact h p hp
          · rw [hxy]
            show conns.filter (fun w => !(w == ws)) ≠ []
            intro hnil
            rw [← List.isEmpty_iff] at hnil
            rw [hnil] at he
            cases he

theorem broadcast_fold (fails : Nat → Bool) :
    ∀ (ps : List (Nat × Nat)) (st : Registry) (acc : List (Nat × Nat)),
      ps.foldl (fun st pr => (stepFail fails st.1 pr, st.2 ++ [pr])) (st, acc)
        = (ps.foldl (stepFail fails) st, acc ++ ps) := by
  intro ps
  induction ps with
  | nil =>
      intro st acc
      simp
  | cons p ps ih =>
      intro st acc
      rw [List.foldl_cons, List.foldl_cons, ih]
      simp

theorem foldl_stepFail_unregistered (fails : Nat → Bool) :
    ∀ (ps : List (Nat × Nat)) (st : Registry) (uid ws : Nat),
      (((uid, ws) ∈ ps ∧ fails ws = true) ∨ registered st uid ws = false) →
      registered (ps.foldl (stepFail fails) st) uid ws = false := by
  intro ps
  induction ps with
  | nil =>
      intro st uid ws h
      rcases h with ⟨h, _⟩ | h
      · cases h
      · exact h
  | cons p ps ih =>
      intro st uid ws h
      rw [List.foldl_cons]
      apply ih
      rcases h with ⟨hmem, hfw⟩ | hreg
      · rcases List.mem_cons.mp hmem with heq | hmem'
        · right
          rw [← heq]
          show registered (stepFail fails st (uid, ws)) uid ws = false
          unfold stepFail
          rw [if_pos hfw]
          exact registered_disconnect_self st ws uid
        · left
          exact ⟨hmem', hfw⟩
      · right
        unfold stepFail
        by_cases hf : fails p.2 = true
        · rw [if_pos hf]
          cases h2 : registered (disconnect st p.2 p.1) uid ws with
          | false => rfl
          | true =>
              have := registered_disconnect_mono st p.2 p.1 uid ws h2
              rw [hreg] at this
              cases this
        · rw [if_neg hf]
          exact hreg

theorem foldl_stepFail_inv (fails : Nat → Bool) :
    ∀ (ps : List (Nat × Nat)) (st : Registry), RegInv st →
      RegInv (ps.foldl (stepFail fails) st) := by
  intro ps
  induction ps with
  | nil =>
      intro st h
      exact h
  | cons p ps ih =>
      intro st h
      rw [List.foldl_cons]
      apply ih
      unfold stepFail
      by_cases hf : fails p.2 = true
      · rw [if_pos hf]
        exact disconnect_regInv st p.2 p.1 h
      · rw [if_neg hf]
        exact h

-- ## C8

/-- C8 amended: `broadcast_update` attempts delivery to every snapshot
pair regardless of earlier failures, and every pair whose send fails ends
the broadcast unregistered; a `send_snapshot` failure, however, is only
logged — the registry is unchanged, so the connection stays registered. -/
theorem broadcast_failure_isolation :
    (∀ (m : Registry) (fails : Nat → Bool),
       (broadcast_update m fails).2 = regPairs m ∧
       (∀ uid ws, (uid, ws) ∈ regPairs m → fails ws = true →
          registered (broadcast_update m fails).1 uid ws = false)) ∧
    (∀ (m : Registry) (fails : Nat → Bool) (ws : Nat),
       (send_snapshot m fails ws).1 = m) := by
  constructor
  · intro m fails
    constructor
    · unfold broadcast_update
      rw [broadcast_fold fails (regPairs m) m []]
      rfl
    · intro uid ws hmem hfw
      unfold broadcast_update
      rw [broadcast_fold fails (regPairs m) m []]
      exact foldl_stepFail_unregistered fails (regPairs m) m uid ws
        (Or.inl ⟨hmem, hfw⟩)
  · intro m fails ws
    rfl

def regW : Registry := [(1, [5, 6]), (2, [7])]

def failsW : Nat → Bool := fun ws => ws == 5

/-- Witness for the amended C8 at a concrete registry where connection 5
fails: every pair is attempted, the failed pair is unregistered, and a
failed snapshot leaves the registry intact. -/
theorem broadcast_failure_isolation_witness :
    (broadcast_update regW failsW).2 = regPairs regW ∧
    ((1, 5) ∈ regPairs regW ∧ failsW 5 = true) ∧
    registered (broadcast_update regW failsW).1 1 5 = false ∧
    (send_snapshot regW failsW 5).1 = regW :=
  ⟨(broadcast_failure_isolation.1 regW failsW).1,
   ⟨by decide, by decide⟩,
   (broadcast_failure_isolation.1 regW failsW).2 1 5 (by decide) (by decide),
   broadcast_failure_isolation.2 regW failsW 5⟩

/-- C8 counterexample: a snapshot send that fails does **not** unregister
the connection — after `send_snapshot` fails on connection 5, player 1's
connection 5 is still registered, contradicting the claim that the
connection state machine is terminal on the first failed send for
`sendSnapshot` too. -/
theorem send_snapshot_failure_keeps_registered :
    (send_snapshot (connect [] 5 1) (fun _ => true) 5).1 = connect [] 5 1 ∧
    registered (connect [] 5 1) 1 5 = true ∧
    ((fun _ => true) : Nat → Bool) 5 = true :=
  ⟨rfl, by decide, rfl⟩

-- ## C10

/-- After `connect`, the player's set exists and holds the connection. -/
theorem regFind_connect_self (m : Registry) (ws uid : Nat) :
    ∃ l, regFind (connect m ws uid) uid = some l ∧ ws ∈ l := by
  have hrw := @find?_updateFirst_self (Nat × List Nat)
    (fun p => p.1 == uid)
    (fun p => (p.1, if p.2.contains ws then p.2 else p.2 ++ [ws]))
    (fun _ => rfl)
  unfold connect
  cases hr : regFind m uid with
  | some conns =>
      show ∃ l, regFind (updateFirst (fun p => p.1 == uid)
        (fun p => (p.1, if p.2.contains ws then p.2 else p.2 ++ [ws])) m) uid
          = some l ∧ ws ∈ l
      unfold regFind
      rw [hrw m]
      unfold regFind at hr
      cases hfind : m.find? (fun p => p.1 == uid) with
      | none =>
          rw [hfind] at hr
          cases hr
      | some pr =>
          simp only [Option.map_some']
          refine ⟨_, rfl, ?_⟩
          by_cases hc : pr.2.contains ws = true
          · rw [if_pos hc]
            exact List.elem_iff.mp hc
          · rw [if_neg hc]
            simp
  | none =>
      show ∃ l, regFind (updateFirst (fun p => p.1 == uid)
        (fun p => (p.1, if p.2.contains ws then p.2 else p.2 ++ [ws]))
        (m ++ [(uid, [])])) uid = some l ∧ ws ∈ l
      unfold regFind
      rw [hrw (m ++ [(uid, [])])]
      have hnone : m.find? (fun p => p.1 == uid) = none := by
        unfold regFind at hr
        cases hfind : m.find? (fun p => p.1 == uid) with
        | none => rfl
        | some pr =>
            rw [hfind] at hr
            cases hr
      rw [find?_append_left_none [(uid, [])]
        (fun x hx => by
          cases hpx : (x.1 == uid) with
          | false => rfl
          | true => exact absurd hpx (List.find?_eq_none.mp hnone x hx))]
      simp only [List.find?, beq_self_eq_true, Option.map_some']
      refine ⟨_, rfl, ?_⟩
      show ws ∈ (if List.contains [] ws then [] else [] ++ [ws])
      simp

theorem get_connection_count_eq_pairs (m : Registry) :
    get_connection_count m = (regPairs m).length := by
  unfold get_connection_count regPairs
  induction m with
  | nil => rfl
  | cons p ps ih =>
      simp only [List.map_cons, List.flatten_cons, List.length_append,
        List.sum_cons, List.length_map]
      rw [ih]

/-- C10.  The registry invariant — every key maps to a non-empty set — is
established by `connect` (which also registers the new connection),
preserved by `disconnect` (the key is dropped when its set empties) and by
`broadcast_update`'s failure-path disconnects; `connectionCount` is the
number of registered (key, connection) pairs, and under the invariant it
is 0 exactly when the registry has no keys. -/
theorem connection_registry_invariant :
    (∀ (m : Registry) (ws uid : Nat), RegInv m →
        RegInv (connect m ws uid) ∧ registered (connect m ws uid) uid ws = true) ∧
    (∀ (m : Registry) (ws uid : Nat), RegInv m → RegInv (disconnect m ws uid)) ∧
    (∀ (m : Registry) (fails : Nat → Bool), RegInv m →
        RegInv (broadcast_update m fails).1) ∧
    (∀ m : Registry, get_connection_count m = (regPairs m).length) ∧
    (∀ m : Registry, RegInv m → (get_connection_count m = 0 ↔ m = [])) := by
  have haddne : ∀ (ws : Nat) (l : List Nat),
      (if l.contains ws then l else l ++ [ws]) ≠ [] ∨ l ≠ [] := by
    intro ws l
    by_cases hc : l.contains ws = true
    · cases l with
      | nil => cases hc
      | cons a t => exact Or.inr (by simp)
    · left
      simp only [hc]
      rw [if_neg (by simp [hc])]
      simp
  refine ⟨?_, ?_, ?_, get_connection_count_eq_pairs, ?_⟩
  · intro m ws uid h
    constructor
    · -- RegInv (connect m ws uid)
      unfold connect
      cases hr : regFind m uid with
      | some conns =>
          intro p hp
          rcases updateFirst_mem hp with hp | ⟨y, hy, hpy, hxy⟩
          · exact h p hp
          · rw [hxy]
            show (if y.2.contains ws then y.2 else y.2 ++ [ws]) ≠ []
            by_cases hc : y.2.contains ws = true
            · rw [if_pos hc]
              exact h y hy
            · rw [if_neg hc]
              simp
      | none =>
          have hnone : m.find? (fun p => p.1 == uid) = none := by
            unfold regFind at hr
            cases hfind : m.find? (fun p => p.1 == uid) with
            | none => rfl
            | some pr =>
                rw [hfind] at hr
                cases hr
          have hnm : ∀ x ∈ m, (x.1 == uid) = false :=
            fun x hx => by
              cases hpx : (x.1 == uid) with
              | false => rfl
              | true => exact absurd hpx (List.find?_eq_none.mp hnone x hx)
          rw [updateFirst_append_left [(uid, [])] hnm]
          intro p hp
          rcases List.mem_append.mp hp with hp | hp
          · exact h p hp
          · have hps : p = (uid, [] ++ [ws]) := by
              simp only [updateFirst, beq_self_eq_true, ite_true, if_true] at hp
              simpa using hp
            rw [hps]
            simp
    · -- registered (connect m ws uid) uid ws = true
      obtain ⟨l, hl, hwl⟩ := regFind_connect_self m ws uid
      unfold registered
      rw [hl]
      exact List.elem_iff.mpr hwl
  · intro m ws uid h
    exact disconnect_regInv m ws uid h
  · intro m fails h
    unfold broadcast_update
    rw [broadcast_fold fails (regPairs m) m []]
    exact foldl_stepFail_inv fails (regPairs m) m h
  · intro m h
    constructor
    · intro hz
      cases m with
      | nil => rfl
      | cons p ps =>
          exfalso
          unfold get_connection_count at hz
          simp only [List.map_cons, List.sum_cons] at hz
          have hplen : p.2.length = 0 := by omega
          exact h p (List.mem_cons_self p ps) (List.length_eq_zero.mp hplen)
    · intro hz
      rw [hz]
      rfl

def regW2 : Registry := [(1, [5])]

/-- Witness for C10 at a concrete registry. -/
theorem connection_registry_invariant_witness :
    RegInv regW2 ∧
    (RegInv (connect regW2 6 2) ∧ registered (connect regW2 6 2) 2 6 = true) ∧
    RegInv (disconnect regW2 5 1) ∧
    RegInv (broadcast_update regW2 failsW).1 ∧
    get_connection_count regW2 = (regPairs regW2).length ∧
    (get_connection_count regW2 = 0 ↔ regW2 = []) := by
  have hinv : RegInv regW2 := by
    intro p hp
    simp only [regW2, List.mem_singleton] at hp
    rw [hp]
    simp
  exact ⟨hinv,
    connection_registry_invariant.1 regW2 6 2 hinv,
    connection_registry_invariant.2.1 regW2 5 1 hinv,
    connection_registry_invariant.2.2.1 regW2 failsW hinv,
    connection_registry_invariant.2.2.2.1 regW2,
    connection_registry_invariant.2.2.2.2 regW2 hinv⟩
